import Mathlib

/-
Verification development for the MERN task-tracker backend, centred on the
rule-based automation subsystem: the Automation schema and its validators
(models/Automation.js), the automation CRUD controllers
(controllers/automationController.js), the task lifecycle controllers
(controllers/taskController.js), the Project pre-save hook
(models/Project.js), and the automation engine contract.  JavaScript values
that matter to the properties (strings, ObjectIds, optional fields, JS
truthiness) are embedded explicitly; fields of the Mongo documents that no
property mentions (dueDate, priority, comments, timestamps) are elided.
-/

namespace Mern

/-- A Mongoose `Mixed` value as it occurs in trigger conditions and action
params: either a plain JS string or an ObjectId. -/
inductive Mixed where
  | mstr (s : String)
  | moid (s : String)
deriving DecidableEq

/-- JS truthiness of a `Mixed` value: the empty string is falsy, every other
string and every ObjectId is truthy. -/
def Mixed.truthy : Mixed → Bool
  | .mstr s => s ≠ ""
  | .moid _ => true

/-- JS `typeof v === "string"`. -/
def Mixed.isString : Mixed → Bool
  | .mstr _ => true
  | .moid _ => false

/-- The hex-digit test used by ObjectId string validity. -/
def isHexChar (c : Char) : Bool :=
  c.isDigit || ("abcdefABCDEF".toList.contains c)

/-- `mongoose.Types.ObjectId.isValid`: ObjectId instances are valid; a string
is valid when it is 24 hex characters (or a 12-character string). -/
def isValidObjectId : Mixed → Bool
  | .moid _ => true
  | .mstr s => (s.length == 24 && s.toList.all isHexChar) || s.length == 12

/-- JS strict equality `v === name` between a Mixed condition/param value and
a status-name string: only a string value can be equal to a string. -/
def mixedEqName (v : Mixed) (name : String) : Bool :=
  match v with
  | .mstr s => s == name
  | .moid _ => false

/-- Identifier equality between a Mixed value and a user/ObjectId string
(after `toString`, both an ObjectId and a string compare by their text). -/
def mixedEqId (v : Mixed) (id : String) : Bool :=
  match v with
  | .mstr s => s == id
  | .moid s => s == id

/-- JS truthiness of an optional string request-body field. -/
def optTruthy (o : Option String) : Bool :=
  match o with
  | some s => s ≠ ""
  | none => false

/-- `trigger.condition` from models/Automation.js: optional `field`,
`operator`, `value` (Mixed). -/
structure Condition where
  field : Option String := none
  operator : Option String := none
  value : Option Mixed := none
deriving DecidableEq

/-- `trigger` from models/Automation.js: a `type` tag (enum-checked at the
schema level) and an optional condition. -/
structure Trigger where
  type : String
  condition : Option Condition := none
deriving DecidableEq

/-- The Mixed `action.params` bag; only the keys the validators and the
executor read are represented, each optional. -/
structure Params where
  status : Option Mixed := none
  badgeName : Option Mixed := none
  userId : Option Mixed := none
  message : Option Mixed := none
deriving DecidableEq

/-- `action` from models/Automation.js: a `type` tag and a params bag. -/
structure ActionSpec where
  type : String
  params : Params := {}
deriving DecidableEq

/-- An automation rule document (models/Automation.js).  `active` defaults to
true, `executionCount` to 0; `lastExecuted` is absent until the first
successful firing.  Timestamps are modelled as naturals. -/
structure Automation where
  id : String
  project : String
  name : String
  trigger : Trigger
  action : ActionSpec
  creator : String
  active : Bool := true
  executionCount : Nat := 0
  lastExecuted : Option Nat := none
deriving DecidableEq

/-- A project membership record (models/Project.js): user id and role, role
defaulting to "editor". -/
structure Member where
  user : String
  role : String := "editor"
deriving DecidableEq

/-- A named project status with its order (models/Project.js). -/
structure ProjStatus where
  name : String
  order : Nat
deriving DecidableEq

/-- A project document (models/Project.js): owner, membership list, ordered
status list (defaulting to To Do / In Progress / Done). -/
structure Project where
  id : String
  owner : String
  members : List Member := []
  statuses : List ProjStatus :=
    [⟨"To Do", 1⟩, ⟨"In Progress", 2⟩, ⟨"Done", 3⟩]
deriving DecidableEq

/-- A task history entry (models/Task.js): optional actor, action tag,
optional old/new values. -/
structure HistoryEntry where
  user : Option String := none
  action : String
  oldValue : Option Mixed := none
  newValue : Option Mixed := none
deriving DecidableEq

/-- A task document (models/Task.js); fields the automation subsystem never
reads (dueDate, priority, comments) are elided. -/
structure Task where
  id : String
  title : String
  description : String := ""
  project : String
  status : String
  assignee : Option String := none
  creator : String
  history : List HistoryEntry := []
deriving DecidableEq

/-- The trigger `type` enum of models/Automation.js. -/
def triggerTypes : List String :=
  ["task_status_changed", "task_assigned", "task_due_date_passed",
   "task_created", "task_updated"]

/-- The action `type` enum of models/Automation.js. -/
def actionTypes : List String :=
  ["assign_badge", "change_status", "assign_user", "send_notification"]

/-- The condition value reached by `trigger.condition?.value` — collapsing
"condition absent" and "condition.value absent" exactly as the JS truthiness
chains do. -/
def condValue (t : Trigger) : Option Mixed :=
  t.condition.bind (fun c => c.value)

/-- The `trigger` path validator of models/Automation.js:
`task_status_changed` needs a truthy string condition value,
`task_assigned` needs a truthy condition value that is a valid ObjectId,
`task_due_date_passed` and every other tag pass. -/
def validateTriggerCondition (t : Trigger) : Bool :=
  match t.type with
  | "task_status_changed" =>
      match condValue t with
      | some v => v.truthy && v.isString
      | none => false
  | "task_assigned" =>
      match condValue t with
      | some v => v.truthy && isValidObjectId v
      | none => false
  | "task_due_date_passed" => true
  | _ => true

/-- The `action` path validator of models/Automation.js: each action kind
needs its truthy, correctly-typed required parameter. -/
def validateActionParams (a : ActionSpec) : Bool :=
  match a.type with
  | "assign_badge" =>
      match a.params.badgeName with
      | some v => v.truthy && v.isString
      | none => false
  | "change_status" =>
      match a.params.status with
      | some v => v.truthy && v.isString
      | none => false
  | "assign_user" =>
      match a.params.userId with
      | some v => v.truthy && isValidObjectId v
      | none => false
  | "send_notification" =>
      match a.params.message with
      | some v => v.truthy && v.isString
      | none => false
  | _ => true

/-- Full document validation run by Mongoose on `Automation.create` and
`save`: required non-empty name, enum-checked type tags, and the two path
validators above. -/
def automationDocValid (a : Automation) : Bool :=
  a.name ≠ "" &&
  triggerTypes.contains a.trigger.type &&
  actionTypes.contains a.action.type &&
  validateTriggerCondition a.trigger &&
  validateActionParams a.action

/-- HTTP-level error outcomes as raised by the controllers through the
express error handler (`res.status(...)` plus `throw`); `serverError` covers
errors thrown without an explicit status (the express default 500),
which is how `validateAutomationLogic` failures surface. -/
inductive Http where
  | badRequest (msg : String)
  | forbidden (msg : String)
  | notFound (msg : String)
  | serverError (msg : String)
deriving DecidableEq

/-- Success test on a controller outcome. -/
def resultOk {α : Type} : Except Http α → Bool
  | .ok _ => true
  | .error _ => false

/-- Test whether a controller outcome is an authorization denial (403). -/
def resultForbidden {α : Type} : Except Http α → Bool
  | .error (.forbidden _) => true
  | _ => false

/-- `project.members.find(member => member.user.toString() === uid)`. -/
def findMember (p : Project) (uid : String) : Option Member :=
  p.members.find? (fun m => m.user == uid)

/-- `project.members.some(member => member.user.toString() === uid)`. -/
def isMember (p : Project) (uid : String) : Bool :=
  p.members.any (fun m => m.user == uid)

/-- `Project.findById` over the persisted projects. -/
def findProject (projects : List Project) (pid : String) : Option Project :=
  projects.find? (fun p => p.id == pid)

/-- `Automation.findById` over the persisted automation rules. -/
def findAutomation (store : List Automation) (aid : String) : Option Automation :=
  store.find? (fun a => a.id == aid)

/-- `project.statuses.some(s => s.name === status)`. -/
def statusExists (p : Project) (s : String) : Bool :=
  p.statuses.any (fun st => st.name == s)

/-- `validateAutomationLogic(trigger, action, project)` from
automationController.js: when the trigger is `task_status_changed` with a
truthy condition value, that value must name one of the project's statuses;
when the action is `change_status` with a truthy `params.status`, that value
must name one of the project's statuses; each failure is a thrown error. -/
def validateAutomationLogic (trigger : Trigger) (action : ActionSpec)
    (project : Project) : Except String Unit :=
  let triggerCheck : Except String Unit :=
    match condValue trigger with
    | some v =>
        if trigger.type == "task_status_changed" && v.truthy then
          if project.statuses.any (fun s => mixedEqName v s.name) then .ok ()
          else .error "Invalid status in trigger condition"
        else .ok ()
    | none => .ok ()
  match triggerCheck with
  | .error e => .error e
  | .ok _ =>
      match action.params.status with
      | some w =>
          if action.type == "change_status" && w.truthy then
            if project.statuses.any (fun s => mixedEqName w s.name) then .ok ()
            else .error "Invalid status in action params"
          else .ok ()
      | none => .ok ()

/-- `createAutomation` from automationController.js, composed with the
`projectAccess` middleware that precedes it on the route (the middleware
rejects non-members with 403; the controller then requires owner or editor,
runs `validateAutomationLogic`, and persists through `Automation.create`,
whose schema validation may itself reject the document).  Returns the new
store and the created rule. -/
def createAutomation (uid : String) (project : Project) (name : String)
    (trigger : Trigger) (action : ActionSpec) (newId : String)
    (store : List Automation) : Except Http (List Automation × Automation) :=
  match findMember project uid with
  | none =>
      .error (.forbidden "Access denied: You are not a member of this project")
  | some memberInfo =>
      let isOwner := project.owner == uid
      let isEditor := memberInfo.role == "editor"
      if !isOwner && !isEditor then
        .error (.forbidden
          "Access denied: Only project owners and editors can create automations")
      else
        match validateAutomationLogic trigger action project with
        | .error e => .error (.serverError e)
        | .ok _ =>
            let a : Automation :=
              { id := newId, project := project.id, name := name,
                trigger := trigger, action := action, creator := uid }
            if automationDocValid a then .ok (store ++ [a], a)
            else .error (.serverError "Automation validation failed")

/-- The `if (name) automation.name = name` step of `updateAutomation`. -/
def applyName (nm : Option String) (a : Automation) : Automation :=
  if optTruthy nm then { a with name := nm.getD "" } else a

/-- The tail of `updateAutomation` after the optional trigger update: apply
the optional action (validated against the current trigger) and the optional
active flag, then save with schema re-validation and write back to the
store. -/
def updateAutomationRest (_uid : String) (aid : String)
    (action : Option ActionSpec) (active : Option Bool) (project : Project)
    (store : List Automation) (a2 : Automation) :
    Except Http (List Automation × Automation) :=
  let step : Except Http Automation :=
    match action with
    | some act =>
        (match validateAutomationLogic a2.trigger act project with
         | .error e => .error (.serverError e)
         | .ok _ => .ok { a2 with action := act })
    | none => .ok a2
  match step with
  | .error e => .error e
  | .ok a3 =>
      let a4 := match active with
                | some b => { a3 with active := b }
                | none => a3
      if automationDocValid a4 then
        .ok (store.map (fun x => if x.id == aid then a4 else x), a4)
      else .error (.serverError "Automation validation failed")

/-- `updateAutomation` from automationController.js: find the rule (404),
find its project, require membership (403), require owner / creator / editor
(403), then apply the provided fields — name if truthy; trigger after
validating it against the current action; action after validating it against
the (possibly just-updated) trigger; active if supplied — and save, which
re-runs the schema validation.  Returns the new store and the updated rule. -/
def updateAutomation (uid : String) (aid : String) (name : Option String)
    (trigger : Option Trigger) (action : Option ActionSpec)
    (active : Option Bool) (projects : List Project)
    (store : List Automation) : Except Http (List Automation × Automation) :=
  match findAutomation store aid with
  | none => .error (.notFound "Automation not found")
  | some automation =>
  match findProject projects automation.project with
  | none => .error (.serverError "Cannot read properties of null")
  | some project =>
  match findMember project uid with
  | none =>
      .error (.forbidden
        "Access denied: You are not a member of this automation's project")
  | some memberInfo =>
  let isOwner := project.owner == uid
  let isCreator := automation.creator == uid
  let isEditor := memberInfo.role == "editor"
  if !isOwner && !isCreator && !isEditor then
    .error (.forbidden
      "Access denied: Only project owners, automation creators, and editors can update automations")
  else
    let a1 := applyName name automation
    match trigger with
    | some t =>
        (match validateAutomationLogic t a1.action project with
         | .error e => .error (.serverError e)
         | .ok _ => updateAutomationRest uid aid action active project store
             { a1 with trigger := t })
    | none => updateAutomationRest uid aid action active project store a1

/-- `deleteAutomation` from automationController.js: find the rule (404),
require membership (403), require owner / creator / editor (403), then
remove the rule from the store. -/
def deleteAutomation (uid : String) (aid : String) (projects : List Project)
    (store : List Automation) : Except Http (List Automation) :=
  match findAutomation store aid with
  | none => .error (.notFound "Automation not found")
  | some automation =>
  match findProject projects automation.project with
  | none => .error (.serverError "Cannot read properties of null")
  | some project =>
  match findMember project uid with
  | none =>
      .error (.forbidden
        "Access denied: You are not a member of this automation's project")
  | some memberInfo =>
  let isOwner := project.owner == uid
  let isCreator := automation.creator == uid
  let isEditor := memberInfo.role == "editor"
  if !isOwner && !isCreator && !isEditor then
    .error (.forbidden
      "Access denied: Only project owners, automation creators, and editors can delete automations")
  else
    .ok (store.filter (fun x => x.id ≠ aid))

/-- `toggleAutomation` from automationController.js: find the rule (404),
require membership (403), require owner / creator / editor (403), flip the
active flag and save. -/
def toggleAutomation (uid : String) (aid : String) (projects : List Project)
    (store : List Automation) : Except Http (List Automation × Automation) :=
  match findAutomation store aid with
  | none => .error (.notFound "Automation not found")
  | some automation =>
  match findProject projects automation.project with
  | none => .error (.serverError "Cannot read properties of null")
  | some project =>
  match findMember project uid with
  | none =>
      .error (.forbidden
        "Access denied: You are not a member of this automation's project")
  | some memberInfo =>
  let isOwner := project.owner == uid
  let isCreator := automation.creator == uid
  let isEditor := memberInfo.role == "editor"
  if !isOwner && !isCreator && !isEditor then
    .error (.forbidden
      "Access denied: Only project owners, automation creators, and editors can toggle automations")
  else
    let a2 := { automation with active := !automation.active }
    if automationDocValid a2 then
      .ok (store.map (fun x => if x.id == aid then a2 else x), a2)
    else .error (.serverError "Automation validation failed")

/-- `getAutomationById` from automationController.js: find the rule (404),
then require membership of the rule's project (403); read-only. -/
def getAutomationById (uid : String) (aid : String) (projects : List Project)
    (store : List Automation) : Except Http Automation :=
  match findAutomation store aid with
  | none => .error (.notFound "Automation not found")
  | some automation =>
  match findProject projects automation.project with
  | none => .error (.serverError "Cannot read properties of null")
  | some project =>
  if isMember project uid then .ok automation
  else
    .error (.forbidden
      "Access denied: You are not a member of this automation's project")

/-- The rule store as the caller sees it after `createAutomation`: unchanged
when the call raised an error (nothing was persisted). -/
def createAutomationStore (uid : String) (project : Project) (name : String)
    (trigger : Trigger) (action : ActionSpec) (newId : String)
    (store : List Automation) : List Automation :=
  match createAutomation uid project name trigger action newId store with
  | .ok (s, _) => s
  | .error _ => store

/-- The rule store as the caller sees it after `updateAutomation`: unchanged
when the call raised an error. -/
def updateAutomationStore (uid : String) (aid : String) (name : Option String)
    (trigger : Option Trigger) (action : Option ActionSpec)
    (active : Option Bool) (projects : List Project)
    (store : List Automation) : List Automation :=
  match updateAutomation uid aid name trigger action active projects store with
  | .ok (s, _) => s
  | .error _ => store

/-- The rule store as the caller sees it after `toggleAutomation`. -/
def toggleAutomationStore (uid : String) (aid : String)
    (projects : List Project) (store : List Automation) : List Automation :=
  match toggleAutomation uid aid projects store with
  | .ok (s, _) => s
  | .error _ => store

/-- The rule store as the caller sees it after `deleteAutomation`. -/
def deleteAutomationStore (uid : String) (aid : String)
    (projects : List Project) (store : List Automation) : List Automation :=
  match deleteAutomation uid aid projects store with
  | .ok s => s
  | .error _ => store

/-- Modelled from the spec: the event context passed by lifecycle producers
to `runAutomations` — `task_status_changed` carries `oldStatus`,
`task_assigned` carries `oldAssignee` (utils/automationEngine.js is not in
the repository snapshot; only its callers are). -/
structure EventContext where
  oldStatus : Option String := none
  oldAssignee : Option String := none
deriving DecidableEq

/-- Modelled from the spec: the kind-specific trigger condition of the
Trigger Matcher (§4.2) — `task_status_changed` requires the condition value
to equal the task's new status; `task_assigned` with no condition matches
any assignment event, and with a condition requires the value to equal the
new assignee identifier; `task_created`, `task_updated` and
`task_due_date_passed` match unconditionally; an unrecognized kind never
matches (fail-closed). -/
def matchesCondition (rule : Automation) (kind : String) (task : Task) : Bool :=
  match kind with
  | "task_status_changed" =>
      (condValue rule.trigger).any (fun v => mixedEqName v task.status)
  | "task_assigned" =>
      match condValue rule.trigger with
      | none => true
      | some v =>
          match task.assignee with
          | some a => mixedEqId v a
          | none => false
  | "task_created" => true
  | "task_updated" => true
  | "task_due_date_passed" => true
  | _ => false

/-- Modelled from the spec: a rule qualifies for an event iff it is active,
its trigger kind equals the event kind, its project equals the task's
project, and the kind-specific condition holds (§4.2). -/
def matchesTrigger (rule : Automation) (kind : String) (task : Task) : Bool :=
  rule.active &&
  rule.trigger.type == kind &&
  rule.project == task.project &&
  matchesCondition rule kind task

/-- Modelled from the spec: the Trigger Matcher — an order-preserving filter
of the project's rules by `matchesTrigger`; the event context is carried in
the event but no condition consults it (§4.2). -/
def matchRules (rules : List Automation) (kind : String) (task : Task)
    (_ctx : EventContext) : List Automation :=
  rules.filter (fun r => matchesTrigger r kind task)

/-- Modelled from the spec: non-task side effects produced by the Action
Executor — badge grants and notification records (§4.3). -/
inductive Effect where
  | badgeGranted (user : String) (badge : String)
  | notificationSent (recipient : String) (message : String)
      (relatedProject : String) (relatedTask : String)
deriving DecidableEq

/-- The identifier text of a Mixed parameter value. -/
def mixedId : Mixed → String
  | .mstr s => s
  | .moid s => s

/-- Modelled from the spec: the Action Executor (§4.3).  `change_status`
validates `params.status` against the project's status set, then mutates the
task status and appends a `status_changed` history entry with old and new
value, or fails with `invalid_status`; `assign_user` validates membership,
sets the assignee and appends an `assigned` entry, or fails with
`not_a_member`; `assign_badge` grants `params.badgeName` to the task's
creator; `send_notification` notifies the assignee (or the creator when
unassigned) with `params.message`. -/
def executeAction (action : ActionSpec) (task : Task) (project : Project) :
    Except String (Task × List Effect) :=
  match action.type with
  | "change_status" =>
      (match action.params.status with
       | some (Mixed.mstr s) =>
           if statusExists project s then
             .ok ({ task with
                      status := s,
                      history := task.history ++
                        [{ action := "status_changed",
                           oldValue := some (.mstr task.status),
                           newValue := some (.mstr s) }] }, [])
           else .error "invalid_status"
       | _ => .error "invalid_status")
  | "assign_user" =>
      (match action.params.userId with
       | some v =>
           if isMember project (mixedId v) then
             .ok ({ task with
                      assignee := some (mixedId v),
                      history := task.history ++
                        [{ action := "assigned",
                           oldValue := task.assignee.map Mixed.mstr,
                           newValue := some (.mstr (mixedId v)) }] }, [])
           else .error "not_a_member"
       | none => .error "not_a_member")
  | "assign_badge" =>
      (match action.params.badgeName with
       | some (Mixed.mstr b) => .ok (task, [.badgeGranted task.creator b])
       | _ => .error "invalid_badge")
  | "send_notification" =>
      (match action.params.message with
       | some (Mixed.mstr m) =>
           .ok (task, [.notificationSent (task.assignee.getD task.creator) m
                        task.project task.id])
       | _ => .error "invalid_message")
  | _ => .error "unknown_action"

/-- Modelled from the spec: the aggregate result of one `fire` pass —
attempted count, succeeded count, and the ordered failure list of
(rule id, error reason) (§4.4). -/
structure FireResult where
  attempted : Nat
  succeeded : Nat
  failures : List (String × String)
deriving DecidableEq

/-- Modelled from the spec: what one sequential execution pass over the
matched rules accumulates — the final task, the side effects, the failure
list, and the ids of the successfully fired rules, all in order. -/
structure RunOut where
  task : Task
  effects : List Effect
  failures : List (String × String)
  succeeded : List String
deriving DecidableEq

/-- Modelled from the spec: sequential execution of the matched rules in
stored order, threading the task through action side effects; a failing rule
is recorded and the pass continues (§4.4, §7). -/
def runMatched (matched : List Automation) (project : Project) (task : Task) :
    RunOut :=
  match matched with
  | [] => { task := task, effects := [], failures := [], succeeded := [] }
  | r :: rest =>
      match executeAction r.action task project with
      | .ok (task1, effs) =>
          let o := runMatched rest project task1
          { o with effects := effs ++ o.effects, succeeded := r.id :: o.succeeded }
      | .error e =>
          let o := runMatched rest project task
          { o with failures := (r.id, e) :: o.failures }

/-- Modelled from the spec: the per-rule execution bookkeeping applied by the
Orchestrator after a pass — exactly the successfully fired rules get their
`executionCount` incremented by one and their last-executed timestamp set. -/
def bumpIf (succ : List String) (now : Nat) (r : Automation) : Automation :=
  if succ.contains r.id then
    { r with executionCount := r.executionCount + 1, lastExecuted := some now }
  else r

/-- Modelled from the spec: everything a `fire` pass produces — the
aggregate result, the task after action side effects, the rule store with
execution bookkeeping applied, the ids of successfully fired rules, and the
non-task side effects. -/
structure FireOutcome where
  result : FireResult
  task : Task
  rules : List Automation
  succeededIds : List String
  effects : List Effect
deriving DecidableEq

/-- Modelled from the spec: the Automation Orchestrator `fire` (§4.4) —
filter the project's rules through the Matcher, execute each match in stored
order isolating failures, and increment `executionCount` and set the
last-executed timestamp of exactly the rules that fired successfully.  Total:
it never throws, so its outcome cannot fail a calling lifecycle producer. -/
def fire (kind : String) (task : Task) (ctx : EventContext)
    (project : Project) (rules : List Automation) (now : Nat) : FireOutcome :=
  let matched := matchRules rules kind task ctx
  let o := runMatched matched project task
  { result := { attempted := matched.length,
                succeeded := o.succeeded.length,
                failures := o.failures },
    task := o.task,
    rules := rules.map (bumpIf o.succeeded now),
    succeededIds := o.succeeded,
    effects := o.effects }

/-- The `pre("save")` hook of models/Project.js: when the owner does not yet
appear in the members list, push a membership record for the owner with role
"owner". -/
def projectPreSave (p : Project) : Project :=
  if p.members.any (fun m => m.user == p.owner) then p
  else { p with members := p.members ++ [{ user := p.owner, role := "owner" }] }

/-- What a successful `createTask` produces: the persisted task, the
`task_created` fire outcome, and the assignment notification if any. -/
structure CreateTaskOut where
  task : Task
  fireOutcome : FireOutcome
  notes : List Effect
deriving DecidableEq

/-- The task document `createTask` persists once all validations passed: the
requested status or the project's first status, the validated assignee, and
the `created` history entry pushed by the Task pre-save hook. -/
def createdTaskDoc (uid : String) (title : String) (description : Option String)
    (projectId : String) (status : Option String) (assignee : Option String)
    (s0 : ProjStatus) (newId : String) : Task :=
  { id := newId, title := title, description := description.getD "",
    project := projectId,
    status := if optTruthy status then status.getD "" else s0.name,
    assignee := if optTruthy assignee then assignee else none,
    creator := uid,
    history := [{ user := some uid, action := "created",
                  newValue := some (.mstr title) }] }

/-- The success payload of `createTask`: the persisted task, the assignment
notification if any, and the `task_created` fire outcome. -/
def createTaskSuccess (uid : String) (title : String)
    (description : Option String) (projectId : String) (status : Option String)
    (assignee : Option String) (project : Project) (s0 : ProjStatus)
    (rules : List Automation) (newId : String) (now : Nat) : CreateTaskOut :=
  { task := createdTaskDoc uid title description projectId status assignee s0 newId,
    fireOutcome := fire "task_created"
      (createdTaskDoc uid title description projectId status assignee s0 newId)
      {} project rules now,
    notes :=
      if optTruthy assignee then
        [Effect.notificationSent (assignee.getD "")
          ("You have been assigned to the task " ++ title) projectId newId]
      else [] }

/-- `createTask` from taskController.js: find the project (404), validate a
provided status against the project's statuses (400), validate a provided
assignee as a project member (400), create the task (status defaulting to the
project's first status; the Task pre-save hooks re-check the status and
append the `created` history entry), notify the assignee if any, then run the
`task_created` automation pass and respond 201. -/
def createTask (uid : String) (title : String) (description : Option String)
    (projectId : String) (status : Option String) (assignee : Option String)
    (projects : List Project) (rules : List Automation) (newId : String)
    (now : Nat) : Except Http CreateTaskOut :=
  match findProject projects projectId with
  | none => .error (.notFound "Project not found")
  | some project =>
  if optTruthy status && !statusExists project (status.getD "") then
    .error (.badRequest "Invalid status")
  else if optTruthy assignee && !(isMember project (assignee.getD "")) then
    .error (.badRequest "Assignee must be a member of the project")
  else
  match project.statuses with
  | [] => .error (.serverError "Cannot read properties of undefined")
  | s0 :: _ =>
    if !statusExists project
        (if optTruthy status then status.getD "" else s0.name) then
      .error (.serverError "Invalid status")
    else
      .ok (createTaskSuccess uid title description projectId status assignee
            project s0 rules newId now)

/-- The new-assignee notification condition of `updateTask`: assignee
provided, not the "unassign" sentinel, and different from the old
assignee. -/
def newAssigneeNotified (assignee : Option String)
    (oldAssignee : Option String) : Bool :=
  optTruthy assignee && !(assignee == some "unassign") &&
    (oldAssignee.isNone || !(oldAssignee == assignee))

/-- The condition under which `updateTask` fires `task_status_changed`: a
truthy status was provided and differs from the old status. -/
def statusChangeFired (status : Option String) (oldStatus : String) : Bool :=
  optTruthy status && !(status.getD "" == oldStatus)

/-- The condition under which `updateTask` fires `task_assigned`: a new
assignee different from the old one, or an unassignment of a previously
assigned task. -/
def assignFired (assignee : Option String) (oldAssignee : Option String) :
    Bool :=
  newAssigneeNotified assignee oldAssignee ||
    (assignee == some "unassign" && oldAssignee.isSome)

/-- What a successful `updateTask` produces: the task after automation side
effects, the fired automation passes with their outcomes in call order, the
rule store after execution bookkeeping, and the assignment notification if
any. -/
structure UpdateTaskOut where
  task : Task
  fired : List (String × FireOutcome)
  rules : List Automation
  notes : List Effect
deriving DecidableEq

/-- The task document a successful `updateTask` saves: provided fields
applied (the sentinel "unassign" clearing the assignee), the `updated`
history entry, and the `status_changed` / `assigned` entries appended by the
Task pre-save hooks when those fields actually changed. -/
def updatedTaskDoc (uid : String) (task : Task) (title : Option String)
    (description : Option String) (status : Option String)
    (assignee : Option String) : Task :=
  let t1 := if optTruthy title then { task with title := title.getD "" }
            else task
  let t2 := if optTruthy description then
              { t1 with description := description.getD "" }
            else t1
  let t3 := if optTruthy status then { t2 with status := status.getD "" }
            else t2
  let t4 := if assignee == some "unassign" then { t3 with assignee := none }
            else if optTruthy assignee then { t3 with assignee := assignee }
            else t3
  let t5 := { t4 with
                history := t4.history ++
                  [{ user := some uid, action := "updated" }] }
  let t6 := if !(t5.status == task.status) then
              { t5 with history := t5.history ++
                  [{ action := "status_changed", oldValue := none,
                     newValue := some (.mstr t5.status) }] }
            else t5
  if !(t6.assignee == task.assignee) then
    { t6 with history := t6.history ++
        [{ action := "assigned", oldValue := none,
           newValue := t6.assignee.map Mixed.mstr }] }
  else t6

/-- The status the saved task will carry: the provided one when truthy, else
the unchanged stored one — the value the Task pre-save hook re-validates. -/
def newStatus (status : Option String) (task : Task) : String :=
  if optTruthy status then status.getD "" else task.status

/-- The success tail of `updateTask` once every validation passed: the saved
document, the new-assignee notification if any, and the chained automation
passes — `task_status_changed` when the status actually changed, then
`task_assigned` when the assignee changed or was cleared, then always the
generic `task_updated` pass, threading the task and rule store through each
pass. -/
def updateTaskSuccess (uid : String) (task : Task) (project : Project)
    (title : Option String) (description : Option String)
    (status : Option String) (assignee : Option String)
    (rules : List Automation) (now : Nat) : UpdateTaskOut :=
  let t7 := updatedTaskDoc uid task title description status assignee
  let notes :=
    if newAssigneeNotified assignee task.assignee then
      [Effect.notificationSent (assignee.getD "")
        ("You have been assigned to the task " ++ t7.title)
        t7.project t7.id]
    else []
  let stage1 :=
    if statusChangeFired status task.status then
      let fo := fire "task_status_changed" t7 { oldStatus := some task.status }
                  project rules now
      ([("task_status_changed", fo)], fo.rules, fo.task)
    else (([] : List (String × FireOutcome)), rules, t7)
  let stage2 :=
    if assignFired assignee task.assignee then
      let fo := fire "task_assigned" stage1.2.2 { oldAssignee := task.assignee }
                  project stage1.2.1 now
      (stage1.1 ++ [("task_assigned", fo)], fo.rules, fo.task)
    else stage1
  let fo3 := fire "task_updated" stage2.2.2 {} project stage2.2.1 now
  { task := fo3.task, fired := stage2.1 ++ [("task_updated", fo3)],
    rules := fo3.rules, notes := notes }

/-- `updateTask` from taskController.js: find the task (404) and its project,
require membership (403); validate a provided status (400 when invalid);
validate a provided assignee, where the sentinel "unassign" clears it and any
other value must be a member (400); the Task pre-save hook re-checks the
saved status; then persist the document and run the automation passes of
`updateTaskSuccess`. -/
def updateTask (uid : String) (taskId : String) (title : Option String)
    (description : Option String) (status : Option String)
    (assignee : Option String) (projects : List Project) (tasks : List Task)
    (rules : List Automation) (now : Nat) : Except Http UpdateTaskOut :=
  match tasks.find? (fun t => t.id == taskId) with
  | none => .error (.notFound "Task not found")
  | some task =>
  match findProject projects task.project with
  | none => .error (.serverError "Cannot read properties of null")
  | some project =>
  if !(isMember project uid) then
    .error (.forbidden
      "Access denied: You are not a member of this task's project")
  else if optTruthy status && !statusExists project (status.getD "") then
    .error (.badRequest "Invalid status")
  else if optTruthy assignee && !(assignee == some "unassign") &&
      !(isMember project (assignee.getD "")) then
    .error (.badRequest "Assignee must be a member of the project")
  else if !statusExists project (newStatus status task) then
    .error (.serverError "Invalid status")
  else
    .ok (updateTaskSuccess uid task project title description status assignee
          rules now)

/-- The pre-save hook leaves the owner field unchanged. -/
lemma projectPreSave_owner (p : Project) : (projectPreSave p).owner = p.owner := by
  unfold projectPreSave
  split <;> rfl

/-- Concrete fixture: a trigger with an unconditional kind. -/
def cTrig : Trigger := { type := "task_created" }

/-- Concrete fixture: a well-formed send_notification action. -/
def cAct : ActionSpec :=
  { type := "send_notification", params := { message := some (.mstr "hi") } }

/-- Concrete fixture: a project whose members list does not contain its
owner (as a raw document, before the pre-save hook). -/
def cP10 : Project :=
  { id := "p10", owner := "o", members := [{ user := "z", role := "editor" }] }

/-- C10: the Project pre-save hook guarantees the owner a membership record
— the owner lookup on a saved project always succeeds, the hook inserts the
owner with role "owner" when absent, and in particular the owner acting on
`createAutomation` for a saved project is never denied by the membership or
role checks. -/
theorem c10_owner_membership (p : Project) (nm : String) (t : Trigger)
    (a : ActionSpec) (nid : String) (store : List Automation) :
    (findMember (projectPreSave p) p.owner).isSome = true ∧
    (p.members.all (fun m => !(m.user == p.owner)) = true →
      findMember (projectPreSave p) p.owner =
        some { user := p.owner, role := "owner" }) ∧
    resultForbidden
      (createAutomation p.owner (projectPreSave p) nm t a nid store) = false := by
  have hmem : (findMember (projectPreSave p) p.owner).isSome = true := by
    unfold projectPreSave findMember
    by_cases h : p.members.any (fun m => m.user == p.owner) = true
    · simp only [h, if_true]
      rw [List.find?_isSome]
      exact List.any_eq_true.mp h
    · simp only [h, if_false]
      rw [List.find?_isSome]
      exact ⟨{ user := p.owner, role := "owner" }, by simp, by simp⟩
  refine ⟨hmem, ?_, ?_⟩
  · intro hall
    have hnone : p.members.find? (fun m => m.user == p.owner) = none := by
      rw [List.find?_eq_none]
      intro x hx
      have := List.all_eq_true.mp hall x hx
      simpa using this
    have hany : ¬ p.members.any (fun m => m.user == p.owner) = true := by
      rw [List.any_eq_true]
      rintro ⟨x, hx, hpx⟩
      have := List.all_eq_true.mp hall x hx
      simp [hpx] at this
    unfold projectPreSave findMember
    rw [if_neg hany]
    change List.find? (fun m => m.user == p.owner)
      (p.members ++ [{ user := p.owner, role := "owner" }]) =
      some { user := p.owner, role := "owner" }
    rw [List.find?_append, hnone]
    simp
  · obtain ⟨mi, hmi⟩ := Option.isSome_iff_exists.mp hmem
    unfold createAutomation
    rw [hmi]
    dsimp only
    have hcond : ¬ ((!((projectPreSave p).owner == p.owner) &&
        !(mi.role == "editor")) = true) := by
      simp [projectPreSave_owner]
    rw [if_neg hcond]
    cases hv : validateAutomationLogic t a (projectPreSave p) with
    | error e => simp [hv, resultForbidden]
    | ok u =>
        simp only [hv]
        split <;> simp [resultForbidden]

/-- C10 witness: on a concrete raw project lacking its owner among members,
the hook adds the owner with role "owner" and the owner's rule creation is
not rejected by authorization. -/
theorem c10_owner_membership_witness :
    (findMember (projectPreSave cP10) cP10.owner).isSome = true ∧
    findMember (projectPreSave cP10) cP10.owner =
      some { user := cP10.owner, role := "owner" } ∧
    resultForbidden
      (createAutomation cP10.owner (projectPreSave cP10) "n" cTrig cAct "i" [])
      = false :=
  ⟨(c10_owner_membership cP10 "n" cTrig cAct "i" []).1,
   (c10_owner_membership cP10 "n" cTrig cAct "i" []).2.1 (by decide),
   (c10_owner_membership cP10 "n" cTrig cAct "i" []).2.2⟩

/-- Concrete fixture: a project owned by "a" with the owner as sole member. -/
def cProjA : Project :=
  { id := "pA", owner := "a", members := [{ user := "a", role := "owner" }] }

/-- C2 counterexample: a task_assigned rule carrying no condition FAILS the
schema trigger validation, and a create of such a rule by the project owner
is rejected rather than persisted — the claim that it passes rule validation
is false on the code. -/
theorem c2_counterexample :
    validateTriggerCondition { type := "task_assigned", condition := none } = false ∧
    resultOk (createAutomation "a" cProjA "r"
      { type := "task_assigned", condition := none } cAct "id1" []) = false := by
  constructor
  · rfl
  · rfl

/-- C2 amended: a task_assigned rule passes trigger validation iff it carries
a truthy condition value that is a valid ObjectId (so a conditionless
task_assigned rule is not creatable); at the matcher level a rule carrying a
condition matches iff its value equals the task's new assignee identifier,
and a (hypothetical) conditionless rule would match any assignment event for
its project. -/
theorem c2_task_assigned_condition (t : Trigger) (r : Automation) (task : Task)
    (v : Mixed) :
    (t.type = "task_assigned" →
      (validateTriggerCondition t = true ↔
        ∃ w, condValue t = some w ∧ w.truthy = true ∧ isValidObjectId w = true)) ∧
    (r.trigger.type = "task_assigned" → condValue r.trigger = some v →
      (matchesTrigger r "task_assigned" task = true ↔
        (r.active = true ∧ r.project = task.project ∧
          ∃ a, task.assignee = some a ∧ mixedEqId v a = true))) ∧
    (r.trigger.type = "task_assigned" → condValue r.trigger = none →
      (matchesTrigger r "task_assigned" task = true ↔
        (r.active = true ∧ r.project = task.project))) := by
  refine ⟨?_, ?_, ?_⟩
  · intro h
    unfold validateTriggerCondition
    rw [h]
    cases hcv : condValue t with
    | none => simp
    | some w => simp [Bool.and_eq_true]
  · intro h hv
    unfold matchesTrigger matchesCondition
    rw [hv, h]
    cases task.assignee with
    | none => simp
    | some a => simp [Bool.and_eq_true, and_assoc]
  · intro h hv
    unfold matchesTrigger matchesCondition
    rw [hv, h]
    simp [Bool.and_eq_true]

/-- Concrete fixture: an active task_assigned rule conditioned on user "u1". -/
def cRuleAsg : Automation :=
  { id := "ra", project := "pA", name := "asg",
    trigger := { type := "task_assigned",
                 condition := some { value := some (.moid "u1") } },
    action := cAct, creator := "a" }

/-- Concrete fixture: a task in project "pA" assigned to "u1". -/
def cTaskAsg : Task :=
  { id := "t1", title := "t", project := "pA", status := "To Do",
    assignee := some "u1", creator := "a" }

/-- C2 witness: the amended characterization applied to the concrete
conditioned rule, which matches the assignment of "u1". -/
theorem c2_task_assigned_condition_witness :
    (validateTriggerCondition cRuleAsg.trigger = true ↔
      ∃ w, condValue cRuleAsg.trigger = some w ∧ w.truthy = true ∧
        isValidObjectId w = true) ∧
    (matchesTrigger cRuleAsg "task_assigned" cTaskAsg = true ↔
      (cRuleAsg.active = true ∧ cRuleAsg.project = cTaskAsg.project ∧
        ∃ a, cTaskAsg.assignee = some a ∧ mixedEqId (.moid "u1") a = true)) :=
  ⟨(c2_task_assigned_condition cRuleAsg.trigger cRuleAsg cTaskAsg
      (.moid "u1")).1 rfl,
   (c2_task_assigned_condition cRuleAsg.trigger cRuleAsg cTaskAsg
      (.moid "u1")).2.1 rfl rfl⟩

/-- C7: for task_status_changed events the matcher compares the condition
value with the task's current (new) status only — the event context, and in
particular `oldStatus`, never enters the selection, so two passes differing
only in context select the same rules. -/
theorem c7_status_match_ignores_old_status (r : Automation) (task : Task)
    (v : Mixed) (rules : List Automation) (c1 c2 : EventContext) :
    (condValue r.trigger = some v →
      matchesTrigger r "task_status_changed" task =
        (r.active && (r.trigger.type == "task_status_changed") &&
          (r.project == task.project) && mixedEqName v task.status)) ∧
    matchRules rules "task_status_changed" task c1 =
      matchRules rules "task_status_changed" task c2 := by
  constructor
  · intro hv
    unfold matchesTrigger matchesCondition
    rw [hv]
    rfl
  · rfl

/-- Concrete fixture: an active rule on status "In Progress". -/
def cRuleSt : Automation :=
  { id := "rs", project := "pA", name := "st",
    trigger := { type := "task_status_changed",
                 condition := some { value := some (.mstr "In Progress") } },
    action := cAct, creator := "a" }

/-- Concrete fixture: a task currently in status "In Progress". -/
def cTaskSt : Task :=
  { id := "t2", title := "t", project := "pA", status := "In Progress",
    creator := "a" }

/-- C7 witness: the characterization applied to the concrete rule and task
and two contexts with different oldStatus values. -/
theorem c7_status_match_ignores_old_status_witness :
    (matchesTrigger cRuleSt "task_status_changed" cTaskSt =
      (cRuleSt.active && (cRuleSt.trigger.type == "task_status_changed") &&
        (cRuleSt.project == cTaskSt.project) &&
        mixedEqName (.mstr "In Progress") cTaskSt.status)) ∧
    matchRules [cRuleSt] "task_status_changed" cTaskSt
      { oldStatus := some "To Do" } =
    matchRules [cRuleSt] "task_status_changed" cTaskSt
      { oldStatus := some "Done" } :=
  ⟨(c7_status_match_ignores_old_status cRuleSt cTaskSt (.mstr "In Progress")
      [cRuleSt] { oldStatus := some "To Do" } { oldStatus := some "Done" }).1 rfl,
   (c7_status_match_ignores_old_status cRuleSt cTaskSt (.mstr "In Progress")
      [cRuleSt] { oldStatus := some "To Do" } { oldStatus := some "Done" }).2⟩

/-- Every failure recorded by an execution pass names a rule of the list the
pass ran over. -/
lemma runMatched_failures_sub (l : List Automation) (p : Project) :
    ∀ (t : Task), ∀ x ∈ (runMatched l p t).failures, ∃ q ∈ l, q.id = x.1 := by
  induction l with
  | nil => intro t x hx; simp [runMatched] at hx
  | cons r rest ih =>
      intro t x hx
      unfold runMatched at hx
      cases he : executeAction r.action t p with
      | ok pr =>
          obtain ⟨t1, effs⟩ := pr
          rw [he] at hx
          dsimp only at hx
          obtain ⟨q, hq, hid⟩ := ih t1 x hx
          exact ⟨q, List.mem_cons_of_mem _ hq, hid⟩
      | error e =>
          rw [he] at hx
          dsimp only at hx
          rcases List.mem_cons.mp hx with h | h
          · exact ⟨r, List.mem_cons_self .., by rw [h]⟩
          · obtain ⟨q, hq, hid⟩ := ih t x h
            exact ⟨q, List.mem_cons_of_mem _ hq, hid⟩

/-- Every success recorded by an execution pass names a rule of the list the
pass ran over. -/
lemma runMatched_succeeded_sub (l : List Automation) (p : Project) :
    ∀ (t : Task), ∀ i ∈ (runMatched l p t).succeeded, ∃ q ∈ l, q.id = i := by
  induction l with
  | nil => intro t i hi; simp [runMatched] at hi
  | cons r rest ih =>
      intro t i hi
      unfold runMatched at hi
      cases he : executeAction r.action t p with
      | ok pr =>
          obtain ⟨t1, effs⟩ := pr
          rw [he] at hi
          dsimp only at hi
          rcases List.mem_cons.mp hi with h | h
          · exact ⟨r, List.mem_cons_self .., by rw [h]⟩
          · obtain ⟨q, hq, hid⟩ := ih t1 i h
            exact ⟨q, List.mem_cons_of_mem _ hq, hid⟩
      | error e =>
          rw [he] at hi
          dsimp only at hi
          obtain ⟨q, hq, hid⟩ := ih t i hi
          exact ⟨q, List.mem_cons_of_mem _ hq, hid⟩

/-- A rule selected by the matcher is active. -/
lemma matched_active (rules : List Automation) (kind : String) (task : Task)
    (ctx : EventContext) :
    ∀ q ∈ matchRules rules kind task ctx, q.active = true := by
  intro q hq
  have := (List.mem_filter.mp hq).2
  unfold matchesTrigger at this
  exact (Bool.and_eq_true _ _ |>.mp
    ((Bool.and_eq_true _ _ |>.mp
      ((Bool.and_eq_true _ _ |>.mp this).1)).1)).1

/-- C8: inactive rules never take part in a fire pass — an inactive rule is
never selected by the matcher, every matched rule is active, the attempted
count counts exactly the matched rules, and every failure and every success
in the outcome names a matched (hence active) rule. -/
theorem c8_inactive_rules_never_fire (rules : List Automation) (kind : String)
    (task : Task) (ctx : EventContext) (p : Project) (now : Nat) :
    (∀ r ∈ rules, r.active = false → r ∉ matchRules rules kind task ctx) ∧
    (∀ q ∈ matchRules rules kind task ctx, q.active = true) ∧
    (fire kind task ctx p rules now).result.attempted =
      (matchRules rules kind task ctx).length ∧
    (∀ x ∈ (fire kind task ctx p rules now).result.failures,
      ∃ q ∈ matchRules rules kind task ctx, q.id = x.1 ∧ q.active = true) ∧
    (∀ i ∈ (fire kind task ctx p rules now).succeededIds,
      ∃ q ∈ matchRules rules kind task ctx, q.id = i ∧ q.active = true) := by
  have hact := matched_active rules kind task ctx
  refine ⟨?_, hact, rfl, ?_, ?_⟩
  · intro r _ hin hmem
    rw [hact r hmem] at hin
    exact Bool.true_eq_false.mp hin
  · intro x hx
    have hx' : x ∈ (runMatched (matchRules rules kind task ctx) p task).failures := hx
    obtain ⟨q, hq, hid⟩ :=
      runMatched_failures_sub (matchRules rules kind task ctx) p task x hx'
    exact ⟨q, hq, hid, hact q hq⟩
  · intro i hi
    have hi' : i ∈ (runMatched (matchRules rules kind task ctx) p task).succeeded := hi
    obtain ⟨q, hq, hid⟩ :=
      runMatched_succeeded_sub (matchRules rules kind task ctx) p task i hi'
    exact ⟨q, hq, hid, hact q hq⟩

/-- Concrete fixture: an inactive rule on an unconditional trigger. -/
def cRuleOff : Automation :=
  { id := "ro", project := "pA", name := "off", trigger := cTrig,
    action := cAct, creator := "a", active := false }

/-- C8 witness: the concrete inactive rule is excluded from matching and the
fire pass over it alone attempts zero rules. -/
theorem c8_inactive_rules_never_fire_witness :
    cRuleOff ∉ matchRules [cRuleOff] "task_created" cTaskSt {} ∧
    (fire "task_created" cTaskSt {} cProjA [cRuleOff] 3).result.attempted =
      (matchRules [cRuleOff] "task_created" cTaskSt {}).length :=
  ⟨(c8_inactive_rules_never_fire [cRuleOff] "task_created" cTaskSt {} cProjA 3).1
      cRuleOff (List.mem_singleton.mpr rfl) rfl,
   (c8_inactive_rules_never_fire [cRuleOff] "task_created" cTaskSt {} cProjA 3).2.2.1⟩

/-- C6: a change_status action whose params.status is not among the project's
statuses fails with reason invalid_status and leaves the task untouched (and
a fire pass over one such matching rule reports it attempted but not
succeeded); when the status is a member, the executor mutates the status and
appends a status_changed history entry carrying the old and new value. -/
theorem c6_change_status_validation (p : Project) (task : Task)
    (a : ActionSpec) (s : String) (r : Automation) (ctx : EventContext)
    (kind : String) (now : Nat)
    (hty : a.type = "change_status")
    (hps : a.params.status = some (.mstr s)) :
    (statusExists p s = false →
      executeAction a task p = .error "invalid_status") ∧
    (statusExists p s = true →
      executeAction a task p =
        .ok ({ task with
                status := s,
                history := task.history ++
                  [{ action := "status_changed",
                     oldValue := some (.mstr task.status),
                     newValue := some (.mstr s) }] },
             [])) ∧
    (matchesTrigger r kind task = true → r.action = a →
      statusExists p s = false →
      (fire kind task ctx p [r] now).result =
        { attempted := 1, succeeded := 0,
          failures := [(r.id, "invalid_status")] } ∧
      (fire kind task ctx p [r] now).task = task) := by
  have hbad : statusExists p s = false →
      executeAction a task p = .error "invalid_status" := by
    intro h
    unfold executeAction
    rw [hty, hps]
    simp [h]
  refine ⟨hbad, ?_, ?_⟩
  · intro h
    unfold executeAction
    rw [hty, hps]
    simp [h]
  · intro hm hra hfail
    have hmr : matchRules [r] kind task ctx = [r] := by
      simp [matchRules, hm]
    have he : executeAction r.action task p = .error "invalid_status" := by
      rw [hra]; exact hbad hfail
    constructor
    · show FireResult.mk _ _ _ = _
      rw [hmr]
      simp [runMatched, he]
    · show (runMatched (matchRules [r] kind task ctx) p task).task = task
      rw [hmr]
      simp [runMatched, he]

/-- Concrete fixture: an active rule whose action targets the nonexistent
status "Archived". -/
def cRuleArch : Automation :=
  { id := "rarch", project := "pA", name := "arch", trigger := cTrig,
    action := { type := "change_status",
                params := { status := some (.mstr "Archived") } },
    creator := "a" }

/-- C6 witness: on the concrete project with default statuses, the
"Archived" change_status action fails with invalid_status, the firing of the
single matching rule reports attempted 1 / succeeded 0, and the task is
unchanged. -/
theorem c6_change_status_validation_witness :
    executeAction cRuleArch.action cTaskSt cProjA = .error "invalid_status" ∧
    (fire "task_created" cTaskSt {} cProjA [cRuleArch] 7).result =
      { attempted := 1, succeeded := 0,
        failures := [("rarch", "invalid_status")] } ∧
    (fire "task_created" cTaskSt {} cProjA [cRuleArch] 7).task = cTaskSt :=
  ⟨(c6_change_status_validation cProjA cTaskSt cRuleArch.action "Archived"
      cRuleArch {} "task_created" 7 rfl rfl).1 (by decide),
   ((c6_change_status_validation cProjA cTaskSt cRuleArch.action "Archived"
      cRuleArch {} "task_created" 7 rfl rfl).2.2 (by decide) rfl (by decide)).1,
   ((c6_change_status_validation cProjA cTaskSt cRuleArch.action "Archived"
      cRuleArch {} "task_created" 7 rfl rfl).2.2 (by decide) rfl (by decide)).2⟩

/-- A successful `updateAutomationRest` writes the saved document over the
matching store slot and never touches execution metadata or the id. -/
lemma updateAutomationRest_ok (uid aid : String) (ac : Option ActionSpec)
    (av : Option Bool) (project : Project) (store : List Automation)
    (a2 : Automation) (out : List Automation × Automation)
    (h : updateAutomationRest uid aid ac av project store a2 = .ok out) :
    out.1 = store.map (fun x => if x.id == aid then out.2 else x) ∧
    out.2.id = a2.id ∧ out.2.executionCount = a2.executionCount ∧
    out.2.lastExecuted = a2.lastExecuted := by
  unfold updateAutomationRest at h
  cases ac with
  | none =>
      dsimp only at h
      cases av with
      | none =>
          dsimp only at h
          split at h
          · injection h with h2
            subst h2
            exact ⟨rfl, rfl, rfl, rfl⟩
          · simp at h
      | some b =>
          dsimp only at h
          split at h
          · injection h with h2
            subst h2
            exact ⟨rfl, rfl, rfl, rfl⟩
          · simp at h
  | some act =>
      dsimp only at h
      cases hv : validateAutomationLogic a2.trigger act project with
      | error e => rw [hv] at h; simp at h
      | ok u =>
          rw [hv] at h
          dsimp only at h
          cases av with
          | none =>
              dsimp only at h
              split at h
              · injection h with h2
                subst h2
                exact ⟨rfl, rfl, rfl, rfl⟩
              · simp at h
          | some b =>
              dsimp only at h
              split at h
              · injection h with h2
                subst h2
                exact ⟨rfl, rfl, rfl, rfl⟩
              · simp at h

/-- A successful `updateAutomation` returns a saved document with the id and
execution metadata of the stored rule it updated, writing it over the
matching store slot. -/
lemma updateAutomation_ok (uid aid : String) (nm : Option String)
    (tg : Option Trigger) (ac : Option ActionSpec) (av : Option Bool)
    (projects : List Project) (store : List Automation)
    (out : List Automation × Automation)
    (h : updateAutomation uid aid nm tg ac av projects store = .ok out) :
    ∃ a0, findAutomation store aid = some a0 ∧
      out.1 = store.map (fun x => if x.id == aid then out.2 else x) ∧
      out.2.id = a0.id ∧ out.2.executionCount = a0.executionCount ∧
      out.2.lastExecuted = a0.lastExecuted := by
  unfold updateAutomation at h
  cases hfa : findAutomation store aid with
  | none => rw [hfa] at h; simp at h
  | some a0 =>
      rw [hfa] at h
      dsimp only at h
      cases hfp : findProject projects a0.project with
      | none => rw [hfp] at h; simp at h
      | some project =>
          rw [hfp] at h
          dsimp only at h
          cases hm : findMember project uid with
          | none => rw [hm] at h; simp at h
          | some mi =>
              rw [hm] at h
              dsimp only at h
              split at h
              · simp at h
              · refine ⟨a0, rfl, ?_⟩
                have hname : (applyName nm a0).id = a0.id ∧
                    (applyName nm a0).executionCount = a0.executionCount ∧
                    (applyName nm a0).lastExecuted = a0.lastExecuted := by
                  unfold applyName
                  split <;> exact ⟨rfl, rfl, rfl⟩
                have hpres : ∀ (a1 : Automation),
                    a1.id = a0.id → a1.executionCount = a0.executionCount →
                    a1.lastExecuted = a0.lastExecuted →
                    updateAutomationRest uid aid ac av project store a1 = .ok out →
                    out.1 = store.map (fun x => if x.id == aid then out.2 else x) ∧
                    out.2.id = a0.id ∧ out.2.executionCount = a0.executionCount ∧
                    out.2.lastExecuted = a0.lastExecuted := by
                  intro a1 hid hec hle hrest
                  obtain ⟨hs, h1, h2, h3⟩ :=
                    updateAutomationRest_ok uid aid ac av project store a1 out hrest
                  exact ⟨hs, by rw [h1, hid], by rw [h2, hec], by rw [h3, hle]⟩
                cases tg with
                | none =>
                    dsimp only at h
                    exact hpres (applyName nm a0) hname.1 hname.2.1 hname.2.2 h
                | some t =>
                    dsimp only at h
                    cases hv : validateAutomationLogic t
                        (applyName nm a0).action project with
                    | error e => rw [hv] at h; simp at h
                    | ok u =>
                        rw [hv] at h
                        dsimp only at h
                        exact hpres { applyName nm a0 with trigger := t }
                          hname.1 hname.2.1 hname.2.2 h

/-- C5: execution bookkeeping — within a fire pass every rule's image keeps
its id, its executionCount never decreases and gains exactly 1 with the
last-executed timestamp set when (and only when) that rule's id fired
successfully; and neither `updateAutomation` nor `toggleAutomation` (the
user-facing mutations) ever changes any stored rule's executionCount or
last-executed timestamp. -/
theorem c5_execution_metadata :
    (∀ (kind : String) (task : Task) (ctx : EventContext) (p : Project)
        (now : Nat) (rules : List Automation) (r : Automation), r ∈ rules →
      ∃ r' ∈ (fire kind task ctx p rules now).rules,
        r'.id = r.id ∧ r.executionCount ≤ r'.executionCount ∧
        ((fire kind task ctx p rules now).succeededIds.contains r.id = true →
          r'.executionCount = r.executionCount + 1 ∧
          r'.lastExecuted = some now) ∧
        ((fire kind task ctx p rules now).succeededIds.contains r.id = false →
          r' = r)) ∧
    (∀ (uid aid : String) (nm : Option String) (tg : Option Trigger)
        (ac : Option ActionSpec) (av : Option Bool)
        (projects : List Project) (store : List Automation)
        (out : List Automation × Automation),
      updateAutomation uid aid nm tg ac av projects store = .ok out →
      ∀ x ∈ out.1, ∃ y ∈ store, y.id = x.id ∧
        x.executionCount = y.executionCount ∧
        x.lastExecuted = y.lastExecuted) ∧
    (∀ (uid aid : String) (projects : List Project) (store : List Automation)
        (out : List Automation × Automation),
      toggleAutomation uid aid projects store = .ok out →
      ∀ x ∈ out.1, ∃ y ∈ store, y.id = x.id ∧
        x.executionCount = y.executionCount ∧
        x.lastExecuted = y.lastExecuted) := by
  refine ⟨?_, ?_, ?_⟩
  · intro kind task ctx p now rules r hr
    refine ⟨bumpIf (runMatched (matchRules rules kind task ctx) p task).succeeded
        now r, List.mem_map_of_mem _ hr, ?_, ?_, ?_, ?_⟩
    · unfold bumpIf; split <;> rfl
    · unfold bumpIf; split
      · exact Nat.le_succ _
      · exact Nat.le_refl _
    · intro hc
      have hc' : (runMatched (matchRules rules kind task ctx) p task).succeeded.contains
          r.id = true := hc
      unfold bumpIf
      rw [if_pos hc']
      exact ⟨rfl, rfl⟩
    · intro hc
      have hc' : ¬ ((runMatched (matchRules rules kind task ctx) p task).succeeded.contains
          r.id = true) := by
        intro hx
        rw [show ((fire kind task ctx p rules now).succeededIds.contains r.id) =
          ((runMatched (matchRules rules kind task ctx) p task).succeeded.contains r.id)
          from rfl, hx] at hc
        exact Bool.true_eq_false.mp hc
      unfold bumpIf
      rw [if_neg hc']
  · intro uid aid nm tg ac av projects store out h x hx
    obtain ⟨a0, hfa, hs, hid, hec, hle⟩ :=
      updateAutomation_ok uid aid nm tg ac av projects store out h
    rw [hs] at hx
    obtain ⟨y, hy, hxy⟩ := List.mem_map.mp hx
    by_cases hc : (y.id == aid) = true
    · rw [if_pos hc] at hxy
      refine ⟨a0, List.mem_of_find?_eq_some hfa, ?_, ?_, ?_⟩
      · rw [← hxy, hid]
      · rw [← hxy, hec]
      · rw [← hxy, hle]
    · rw [if_neg hc] at hxy
      exact ⟨y, hy, by rw [hxy], by rw [hxy], by rw [hxy]⟩
  · intro uid aid projects store out h x hx
    unfold toggleAutomation at h
    cases hfa : findAutomation store aid with
    | none => rw [hfa] at h; simp at h
    | some a0 =>
        rw [hfa] at h
        dsimp only at h
        cases hfp : findProject projects a0.project with
        | none => rw [hfp] at h; simp at h
        | some project =>
            rw [hfp] at h
            dsimp only at h
            cases hm : findMember project uid with
            | none => rw [hm] at h; simp at h
            | some mi =>
                rw [hm] at h
                dsimp only at h
                split at h
                · simp at h
                · split at h
                  · injection h with h2
                    subst h2
                    dsimp only at hx
                    obtain ⟨y, hy, hxy⟩ := List.mem_map.mp hx
                    by_cases hc : (y.id == aid) = true
                    · rw [if_pos hc] at hxy
                      refine ⟨a0, List.mem_of_find?_eq_some hfa, ?_, ?_, ?_⟩
                      · rw [← hxy]
                      · rw [← hxy]
                      · rw [← hxy]
                    · rw [if_neg hc] at hxy
                      exact ⟨y, hy, by rw [hxy], by rw [hxy], by rw [hxy]⟩
                  · simp at h

/-- C5 witness: firing the concrete matching rule bumps its count by exactly
one and stamps the timestamp. -/
theorem c5_execution_metadata_witness :
    ∃ r' ∈ (fire "task_status_changed" cTaskSt {} cProjA [cRuleSt] 5).rules,
      r'.id = cRuleSt.id ∧ cRuleSt.executionCount ≤ r'.executionCount ∧
      ((fire "task_status_changed" cTaskSt {} cProjA [cRuleSt] 5).succeededIds.contains
          cRuleSt.id = true →
        r'.executionCount = cRuleSt.executionCount + 1 ∧
        r'.lastExecuted = some 5) ∧
      ((fire "task_status_changed" cTaskSt {} cProjA [cRuleSt] 5).succeededIds.contains
          cRuleSt.id = false →
        r' = cRuleSt) :=
  c5_execution_metadata.1 "task_status_changed" cTaskSt {} cProjA 5 [cRuleSt]
    cRuleSt (List.mem_singleton.mpr rfl)

/-- The create-permission predicate the code implements: the acting user
must hold a membership record (the projectAccess middleware) and be the
project owner or an editor. -/
def canCreateAutomation (p : Project) (uid : String) : Bool :=
  match findMember p uid with
  | none => false
  | some mi => p.owner == uid || mi.role == "editor"

/-- The modify-permission predicate the code implements for update, delete
and toggle: the acting user must hold a membership record and be the project
owner, the rule's creator, or an editor.  Membership is required first — a
rule creator who is no longer a member is denied. -/
def canModifyAutomation (p : Project) (a : Automation) (uid : String) : Bool :=
  match findMember p uid with
  | none => false
  | some mi => p.owner == uid || a.creator == uid || mi.role == "editor"

/-- The save tail of an automation update never produces an authorization
error. -/
lemma updateAutomationRest_not_forbidden (uid aid : String)
    (ac : Option ActionSpec) (av : Option Bool) (project : Project)
    (store : List Automation) (a2 : Automation) :
    resultForbidden (updateAutomationRest uid aid ac av project store a2) =
      false := by
  unfold updateAutomationRest
  cases ac with
  | none =>
      dsimp only
      cases av <;> dsimp only <;> split <;> rfl
  | some act =>
      dsimp only
      cases hv : validateAutomationLogic a2.trigger act project with
      | error e => rfl
      | ok u =>
          dsimp only
          cases av <;> dsimp only <;> split <;> rfl

/-- Concrete fixture: a project whose only member is its owner "o3". -/
def cP3 : Project :=
  { id := "p3", owner := "o3", members := [{ user := "o3", role := "owner" }] }

/-- Concrete fixture: a rule in cP3 authored by "c3", who is not a member. -/
def cR3 : Automation :=
  { id := "a3", project := "p3", name := "r3", trigger := cTrig,
    action := cAct, creator := "c3" }

/-- C3 counterexample: the acting user is the rule's creator, yet update,
toggle and delete are all denied with an authorization error, because the
code requires project membership before the owner/creator/editor
disjunction — the claimed iff is false on the code. -/
theorem c3_counterexample :
    cR3.creator = "c3" ∧
    resultForbidden (updateAutomation "c3" "a3" none none none none [cP3] [cR3])
      = true ∧
    resultForbidden (toggleAutomation "c3" "a3" [cP3] [cR3]) = true ∧
    resultForbidden (deleteAutomation "c3" "a3" [cP3] [cR3]) = true := by
  refine ⟨rfl, ?_, ?_, ?_⟩ <;> decide

/-- C3 amended: authorization outcomes of the automation operations — create
is denied iff the user is not (a member and owner-or-editor); update, delete
and toggle are denied iff the user is not (a member and
owner-or-creator-or-editor); reading a rule requires only membership; and a
user without modify permission leaves the rule store unchanged. -/
theorem c3_access_policy (uid aid nmc newId : String) (trigger : Trigger)
    (action : ActionSpec) (nm : Option String) (tg : Option Trigger)
    (ac : Option ActionSpec) (av : Option Bool) (projects : List Project)
    (store : List Automation) (a : Automation) (p : Project)
    (hfa : findAutomation store aid = some a)
    (hfp : findProject projects a.project = some p) :
    (resultForbidden (createAutomation uid p nmc trigger action newId store) =
      !canCreateAutomation p uid) ∧
    (resultForbidden (updateAutomation uid aid nm tg ac av projects store) =
      !canModifyAutomation p a uid) ∧
    (resultForbidden (deleteAutomation uid aid projects store) =
      !canModifyAutomation p a uid) ∧
    (resultForbidden (toggleAutomation uid aid projects store) =
      !canModifyAutomation p a uid) ∧
    (resultForbidden (getAutomationById uid aid projects store) =
      !(isMember p uid)) ∧
    (canModifyAutomation p a uid = false →
      updateAutomationStore uid aid nm tg ac av projects store = store ∧
      deleteAutomationStore uid aid projects store = store ∧
      toggleAutomationStore uid aid projects store = store) := by
  have hcreate : resultForbidden
      (createAutomation uid p nmc trigger action newId store) =
      !canCreateAutomation p uid := by
    unfold createAutomation canCreateAutomation
    cases hm : findMember p uid with
    | none => rfl
    | some mi =>
        dsimp only
        by_cases hrole : (!(p.owner == uid) && !(mi.role == "editor")) = true
        · rw [if_pos hrole]
          revert hrole
          cases p.owner == uid <;> cases mi.role == "editor" <;> simp [resultForbidden]
        · rw [if_neg hrole]
          have hc : (p.owner == uid || mi.role == "editor") = true := by
            revert hrole
            cases p.owner == uid <;> cases mi.role == "editor" <;> simp
          rw [hc]
          cases hv : validateAutomationLogic trigger action p with
          | error e => rfl
          | ok u =>
              dsimp only
              split <;> rfl
  have hupdate : resultForbidden
      (updateAutomation uid aid nm tg ac av projects store) =
      !canModifyAutomation p a uid := by
    unfold updateAutomation canModifyAutomation
    rw [hfa]
    dsimp only
    rw [hfp]
    dsimp only
    cases hm : findMember p uid with
    | none => rfl
    | some mi =>
        dsimp only
        by_cases hrole : (!(p.owner == uid) && !(a.creator == uid) &&
            !(mi.role == "editor")) = true
        · rw [if_pos hrole]
          revert hrole
          cases p.owner == uid <;> cases a.creator == uid <;>
            cases mi.role == "editor" <;> simp [resultForbidden]
        · rw [if_neg hrole]
          have hc : (p.owner == uid || a.creator == uid ||
              mi.role == "editor") = true := by
            revert hrole
            cases p.owner == uid <;> cases a.creator == uid <;>
              cases mi.role == "editor" <;> simp
          rw [hc]
          cases tg with
          | none => exact updateAutomationRest_not_forbidden ..
          | some t =>
              dsimp only
              cases hv : validateAutomationLogic t (applyName nm a).action p with
              | error e => rfl
              | ok u =>
                  dsimp only
                  exact updateAutomationRest_not_forbidden ..
  have hdelete : resultForbidden (deleteAutomation uid aid projects store) =
      !canModifyAutomation p a uid := by
    unfold deleteAutomation canModifyAutomation
    rw [hfa]
    dsimp only
    rw [hfp]
    dsimp only
    cases hm : findMember p uid with
    | none => rfl
    | some mi =>
        dsimp only
        by_cases hrole : (!(p.owner == uid) && !(a.creator == uid) &&
            !(mi.role == "editor")) = true
        · rw [if_pos hrole]
          revert hrole
          cases p.owner == uid <;> cases a.creator == uid <;>
            cases mi.role == "editor" <;> simp [resultForbidden]
        · rw [if_neg hrole]
          have hc : (p.owner == uid || a.creator == uid ||
              mi.role == "editor") = true := by
            revert hrole
            cases p.owner == uid <;> cases a.creator == uid <;>
              cases mi.role == "editor" <;> simp
          rw [hc]
          rfl
  have htoggle : resultForbidden (toggleAutomation uid aid projects store) =
      !canModifyAutomation p a uid := by
    unfold toggleAutomation canModifyAutomation
    rw [hfa]
    dsimp only
    rw [hfp]
    dsimp only
    cases hm : findMember p uid with
    | none => rfl
    | some mi =>
        dsimp only
        by_cases hrole : (!(p.owner == uid) && !(a.creator == uid) &&
            !(mi.role == "editor")) = true
        · rw [if_pos hrole]
          revert hrole
          cases p.owner == uid <;> cases a.creator == uid <;>
            cases mi.role == "editor" <;> simp [resultForbidden]
        · rw [if_neg hrole]
          have hc : (p.owner == uid || a.creator == uid ||
              mi.role == "editor") = true := by
            revert hrole
            cases p.owner == uid <;> cases a.creator == uid <;>
              cases mi.role == "editor" <;> simp
          rw [hc]
          split <;> rfl
  refine ⟨hcreate, hupdate, hdelete, htoggle, ?_, ?_⟩
  · unfold getAutomationById
    rw [hfa]
    dsimp only
    rw [hfp]
    dsimp only
    by_cases him : isMember p uid = true
    · rw [if_pos him, him]
      rfl
    · rw [if_neg him]
      have hfalse : isMember p uid = false := Bool.not_eq_true _ |>.mp him
      rw [hfalse]
      rfl
  · intro hcm
    refine ⟨?_, ?_, ?_⟩
    · unfold updateAutomationStore
      cases hu : updateAutomation uid aid nm tg ac av projects store with
      | ok o => rw [hu] at hupdate; rw [hcm] at hupdate; simp [resultForbidden] at hupdate
      | error e => rfl
    · unfold deleteAutomationStore
      cases hu : deleteAutomation uid aid projects store with
      | ok o => rw [hu] at hdelete; rw [hcm] at hdelete; simp [resultForbidden] at hdelete
      | error e => rfl
    · unfold toggleAutomationStore
      cases hu : toggleAutomation uid aid projects store with
      | ok o => rw [hu] at htoggle; rw [hcm] at htoggle; simp [resultForbidden] at htoggle
      | error e => rfl

/-- C3 witness: the characterization applied to the concrete owner "o3" on
its project and to the non-member creator "c3". -/
theorem c3_access_policy_witness :
    (resultForbidden (createAutomation "o3" cP3 "n" cTrig cAct "i" [cR3]) =
      !canCreateAutomation cP3 "o3") ∧
    (resultForbidden (updateAutomation "c3" "a3" none none none none [cP3] [cR3]) =
      !canModifyAutomation cP3 cR3 "c3") :=
  ⟨(c3_access_policy "o3" "a3" "n" "i" cTrig cAct none none none none [cP3]
      [cR3] cR3 cP3 (by decide) (by decide)).1,
   (c3_access_policy "c3" "a3" "n" "i" cTrig cAct none none none none [cP3]
      [cR3] cR3 cP3 (by decide) (by decide)).2.1⟩

/-- A task_status_changed trigger whose truthy condition value names no
project status makes `validateAutomationLogic` throw, whatever the action. -/
lemma validateLogic_bad_trigger (t : Trigger) (a : ActionSpec) (p : Project)
    (v : Mixed) (h1 : t.type = "task_status_changed")
    (h2 : condValue t = some v) (h3 : v.truthy = true)
    (h4 : p.statuses.any (fun s => mixedEqName v s.name) = false) :
    validateAutomationLogic t a p =
      .error "Invalid status in trigger condition" := by
  unfold validateAutomationLogic
  rw [h2]
  dsimp only
  rw [h1]
  simp [h3, h4]

/-- A change_status action whose truthy params.status names no project
status makes `validateAutomationLogic` throw, whatever the trigger. -/
lemma validateLogic_bad_action (t : Trigger) (a : ActionSpec) (p : Project)
    (w : Mixed) (h5 : a.type = "change_status")
    (h6 : a.params.status = some w) (h7 : w.truthy = true)
    (h8 : p.statuses.any (fun s => mixedEqName w s.name) = false) :
    ∃ e, validateAutomationLogic t a p = .error e := by
  unfold validateAutomationLogic
  cases hcv : condValue t with
  | none =>
      dsimp only
      rw [h6]
      rw [h5]
      simp [h7, h8]
  | some v =>
      dsimp only
      by_cases hb : (t.type == "task_status_changed" && v.truthy) = true
      · rw [if_pos hb]
        by_cases hsv : p.statuses.any (fun s => mixedEqName v s.name) = true
        · rw [if_pos hsv]
          dsimp only
          rw [h6, h5]
          simp [h7, h8]
        · rw [if_neg hsv]
          exact ⟨_, rfl⟩
      · rw [if_neg hb]
        dsimp only
        rw [h6, h5]
        simp [h7, h8]

/-- `createAutomation` cannot succeed when `validateAutomationLogic`
throws. -/
lemma createAutomation_not_ok (uid : String) (p : Project) (nmc : String)
    (t : Trigger) (a : ActionSpec) (newId : String) (store : List Automation)
    (hval : ∃ e, validateAutomationLogic t a p = .error e) :
    resultOk (createAutomation uid p nmc t a newId store) = false := by
  unfold createAutomation
  cases hm : findMember p uid with
  | none => rfl
  | some mi =>
      dsimp only
      split
      · rfl
      · obtain ⟨e, he⟩ := hval
        rw [he]
        rfl

/-- An erroring `createAutomation` persists nothing. -/
lemma createAutomationStore_of_not_ok (uid : String) (p : Project)
    (nmc : String) (t : Trigger) (a : ActionSpec) (newId : String)
    (store : List Automation)
    (h : resultOk (createAutomation uid p nmc t a newId store) = false) :
    createAutomationStore uid p nmc t a newId store = store := by
  unfold createAutomationStore
  cases hc : createAutomation uid p nmc t a newId store with
  | ok o => rw [hc] at h; simp [resultOk] at h
  | error e => rfl

/-- An erroring `updateAutomation` persists nothing. -/
lemma updateAutomationStore_of_not_ok (uid aid : String) (nm : Option String)
    (tg : Option Trigger) (ac : Option ActionSpec) (av : Option Bool)
    (projects : List Project) (store : List Automation)
    (h : resultOk (updateAutomation uid aid nm tg ac av projects store) = false) :
    updateAutomationStore uid aid nm tg ac av projects store = store := by
  unfold updateAutomationStore
  cases hc : updateAutomation uid aid nm tg ac av projects store with
  | ok o => rw [hc] at h; simp [resultOk] at h
  | error e => rfl

/-- `updateAutomationRest` cannot succeed when the action validation
throws. -/
lemma updateAutomationRest_not_ok (uid aid : String) (act : ActionSpec)
    (av : Option Bool) (project : Project) (store : List Automation)
    (a2 : Automation)
    (hval : ∃ e, validateAutomationLogic a2.trigger act project = .error e) :
    resultOk (updateAutomationRest uid aid (some act) av project store a2) =
      false := by
  unfold updateAutomationRest
  dsimp only
  obtain ⟨e, he⟩ := hval
  rw [he]
  rfl

/-- C4: a rule create or update whose task_status_changed trigger condition
value, or whose change_status action params.status, names a status absent
from the owning project's status set is rejected with an error and persists
nothing — the store the caller sees is exactly the store from before the
call. -/
theorem c4_invalid_status_rejected (p : Project) (uid nmc aid newId : String)
    (trigA trigAny : Trigger) (actAny actB : ActionSpec) (v w : Mixed)
    (store : List Automation) (projects : List Project) (a0 : Automation)
    (nm : Option String) (av : Option Bool)
    (hfa : findAutomation store aid = some a0)
    (hfp : findProject projects a0.project = some p)
    (h1 : trigA.type = "task_status_changed") (h2 : condValue trigA = some v)
    (h3 : v.truthy = true)
    (h4 : p.statuses.any (fun s => mixedEqName v s.name) = false)
    (h5 : actB.type = "change_status") (h6 : actB.params.status = some w)
    (h7 : w.truthy = true)
    (h8 : p.statuses.any (fun s => mixedEqName w s.name) = false) :
    (resultOk (createAutomation uid p nmc trigA actAny newId store) = false ∧
     createAutomationStore uid p nmc trigA actAny newId store = store) ∧
    (resultOk (createAutomation uid p nmc trigAny actB newId store) = false ∧
     createAutomationStore uid p nmc trigAny actB newId store = store) ∧
    (resultOk (updateAutomation uid aid nm (some trigA) none av projects store)
        = false ∧
     updateAutomationStore uid aid nm (some trigA) none av projects store =
       store) ∧
    (resultOk (updateAutomation uid aid nm none (some actB) av projects store)
        = false ∧
     updateAutomationStore uid aid nm none (some actB) av projects store =
       store) := by
  have hc1 : resultOk (createAutomation uid p nmc trigA actAny newId store)
      = false :=
    createAutomation_not_ok uid p nmc trigA actAny newId store
      ⟨_, validateLogic_bad_trigger trigA actAny p v h1 h2 h3 h4⟩
  have hc2 : resultOk (createAutomation uid p nmc trigAny actB newId store)
      = false :=
    createAutomation_not_ok uid p nmc trigAny actB newId store
      (validateLogic_bad_action trigAny actB p w h5 h6 h7 h8)
  have hu1 : resultOk
      (updateAutomation uid aid nm (some trigA) none av projects store)
      = false := by
    unfold updateAutomation
    rw [hfa]
    dsimp only
    rw [hfp]
    dsimp only
    cases hm : findMember p uid with
    | none => rfl
    | some mi =>
        dsimp only
        split
        · rfl
        · rw [validateLogic_bad_trigger trigA (applyName nm a0).action p v
            h1 h2 h3 h4]
          rfl
  have hu2 : resultOk
      (updateAutomation uid aid nm none (some actB) av projects store)
      = false := by
    unfold updateAutomation
    rw [hfa]
    dsimp only
    rw [hfp]
    dsimp only
    cases hm : findMember p uid with
    | none => rfl
    | some mi =>
        dsimp only
        split
        · rfl
        · exact updateAutomationRest_not_ok uid aid actB av p store
            (applyName nm a0)
            (validateLogic_bad_action (applyName nm a0).trigger actB p w
              h5 h6 h7 h8)
  exact ⟨⟨hc1, createAutomationStore_of_not_ok _ _ _ _ _ _ _ hc1⟩,
         ⟨hc2, createAutomationStore_of_not_ok _ _ _ _ _ _ _ hc2⟩,
         ⟨hu1, updateAutomationStore_of_not_ok _ _ _ _ _ _ _ _ hu1⟩,
         ⟨hu2, updateAutomationStore_of_not_ok _ _ _ _ _ _ _ _ hu2⟩⟩

/-- Concrete fixture: a trigger conditioned on the nonexistent status
"Archived". -/
def cTrigBad : Trigger :=
  { type := "task_status_changed",
    condition := some { value := some (.mstr "Archived") } }

/-- Concrete fixture: a change_status action targeting the nonexistent
status "Archived". -/
def cActBad : ActionSpec :=
  { type := "change_status", params := { status := some (.mstr "Archived") } }

/-- Concrete fixture: a rule stored in project "pA", authored by "a". -/
def cR4 : Automation :=
  { id := "a4", project := "pA", name := "r4", trigger := cTrig,
    action := cAct, creator := "a" }

/-- C4 witness: against the concrete project with default statuses, creating
a rule with the bad trigger and updating the stored rule with the bad action
are rejected and leave the store as it was. -/
theorem c4_invalid_status_rejected_witness :
    (resultOk (createAutomation "a" cProjA "n" cTrigBad cAct "i" [cR4]) = false ∧
     createAutomationStore "a" cProjA "n" cTrigBad cAct "i" [cR4] = [cR4]) ∧
    (resultOk (updateAutomation "a" "a4" none none (some cActBad) none
        [cProjA] [cR4]) = false ∧
     updateAutomationStore "a" "a4" none none (some cActBad) none
        [cProjA] [cR4] = [cR4]) := by
  have h := c4_invalid_status_rejected cProjA "a" "n" "a4" "i" cTrigBad cTrig
    cAct cActBad (.mstr "Archived") (.mstr "Archived") [cR4] [cProjA] cR4
    none none (by decide) (by decide) rfl rfl (by decide) (by decide) rfl rfl
    (by decide) (by decide)
  exact ⟨h.1, h.2.2.2⟩

/-- C1: the automation pass never gates the primary task operation — whether
`createTask` or `updateTask` succeeds is independent of the rule store the
pass runs over (in particular, of any failing rules in it), because `fire`
is total and its outcome is only carried in the success payload. -/
theorem c1_automation_never_gates (uid title tid pid nid : String)
    (d st asg ti : Option String) (projects : List Project)
    (tasks : List Task) (rules1 rules2 : List Automation) (now : Nat) :
    resultOk (createTask uid title d pid st asg projects rules1 nid now) =
      resultOk (createTask uid title d pid st asg projects rules2 nid now) ∧
    resultOk (updateTask uid tid ti d st asg projects tasks rules1 now) =
      resultOk (updateTask uid tid ti d st asg projects tasks rules2 now) := by
  constructor
  · unfold createTask
    repeat' (first | split | dsimp only | rfl)
  · unfold updateTask
    repeat' (first | split | dsimp only | rfl)

/-- The event kinds a successful update fires, in call order: the
status-change pass when the status actually changed, the assignment pass
when the assignee changed or was cleared, then always task_updated. -/
lemma updateTaskSuccess_fired (uid : String) (task : Task) (project : Project)
    (ti d st asg : Option String) (rules : List Automation) (now : Nat) :
    (updateTaskSuccess uid task project ti d st asg rules now).fired.map
        Prod.fst =
      ((if statusChangeFired st task.status then ["task_status_changed"] else [])
      ++ (if assignFired asg task.assignee then ["task_assigned"] else []))
      ++ ["task_updated"] := by
  unfold updateTaskSuccess
  by_cases hS : statusChangeFired st task.status = true <;>
    by_cases hA : assignFired asg task.assignee = true <;>
      simp [hS, hA]

/-- C9: a successful `updateTask` always runs the generic task_updated pass,
after the (conditional) task_status_changed and task_assigned passes, in that
fixed order — the fired event kinds are exactly the status-change pass when
the status actually changed, then the assignment pass when the assignee
changed or was cleared, then always task_updated, which is therefore last. -/
theorem c9_update_always_fires_task_updated (uid tid : String)
    (ti d st asg : Option String) (projects : List Project)
    (tasks : List Task) (rules : List Automation) (now : Nat) (task : Task)
    (out : UpdateTaskOut)
    (hfind : tasks.find? (fun t => t.id == tid) = some task)
    (hok : updateTask uid tid ti d st asg projects tasks rules now = .ok out) :
    out.fired.map Prod.fst =
      ((if statusChangeFired st task.status then ["task_status_changed"] else [])
      ++ (if assignFired asg task.assignee then ["task_assigned"] else []))
      ++ ["task_updated"] ∧
    (out.fired.map Prod.fst).getLast? = some "task_updated" := by
  unfold updateTask at hok
  rw [hfind] at hok
  dsimp only at hok
  cases hfp : findProject projects task.project with
  | none => rw [hfp] at hok; simp at hok
  | some project =>
      rw [hfp] at hok
      dsimp only at hok
      split at hok
      · simp at hok
      · split at hok
        · simp at hok
        · split at hok
          · simp at hok
          · split at hok
            · simp at hok
            · have hout : out =
                  updateTaskSuccess uid task project ti d st asg rules now := by
                injection hok with h2
                exact h2.symm
              rw [hout, updateTaskSuccess_fired]
              exact ⟨rfl, List.getLast?_concat _⟩

/-- Concrete fixture: the outcome of the concrete status-changing update. -/
def cOut9 : UpdateTaskOut :=
  updateTaskSuccess "a" cTaskSt cProjA none none (some "Done") none [] 9

/-- C9 witness: the concrete update moving cTaskSt to "Done" fires the
status-change pass and then the generic update pass, the latter last. -/
theorem c9_update_always_fires_task_updated_witness :
    cOut9.fired.map Prod.fst =
      ((if statusChangeFired (some "Done") cTaskSt.status then
          ["task_status_changed"] else [])
      ++ (if assignFired none cTaskSt.assignee then ["task_assigned"] else []))
      ++ ["task_updated"] ∧
    (cOut9.fired.map Prod.fst).getLast? = some "task_updated" :=
  c9_update_always_fires_task_updated "a" "t2" none none (some "Done") none
    [cProjA] [cTaskSt] [] 9 cTaskSt cOut9 rfl rfl

end Mern
